import Mathlib

/-!
Shallow embedding of arxiv_feed/fetch_papers.py.

The script is a single linear pipeline: build a query URL, perform one HTTP
GET, parse the Atom XML feed, map entries to paper records, filter out error
pseudo-entries, and serialize the result to a JSON file and to a
script-embeddable file.  Pure helpers are translated as Lean functions; the
one effectful function (main) is modelled as a function from the outcome of
the single network call to a record of exit code, written files and console
lines.  XML documents are modelled as already-parsed element trees, the python
standard library helpers used by the script (re.sub on the whitespace class,
str.strip, str.lower, str.startswith, ElementTree element access,
urllib quote, json.dumps) are given direct definitions.
-/

namespace ArxivFeed

/-- Whitespace class shared by Python's regex class backslash-s (on str) and
str.strip: ASCII whitespace plus the Unicode whitespace code points. -/
def isPySpace (c : Char) : Bool :=
  let n := c.toNat
  decide (n = 32 ∨ (9 ≤ n ∧ n ≤ 13) ∨ (28 ≤ n ∧ n ≤ 31) ∨ n = 133 ∨ n = 160 ∨
    n = 0x1680 ∨ (0x2000 ≤ n ∧ n ≤ 0x200a) ∨ n = 0x2028 ∨ n = 0x2029 ∨
    n = 0x202f ∨ n = 0x205f ∨ n = 0x3000)

/-- Models re.sub of one-or-more whitespace to a single space: every maximal
run of whitespace characters is replaced by one space character. -/
def subWS : List Char → List Char
  | [] => []
  | [c] => if isPySpace c then [' '] else [c]
  | c :: d :: cs =>
    if isPySpace c then
      if isPySpace d then subWS (d :: cs) else ' ' :: subWS (d :: cs)
    else c :: subWS (d :: cs)

/-- Models str.strip with no arguments: drop leading and trailing whitespace. -/
def pyStrip (l : List Char) : List Char :=
  ((l.dropWhile isPySpace).reverse.dropWhile isPySpace).reverse

/-- Translation of clean_text: collapse whitespace and strip leading and
trailing spaces; None becomes the empty string. -/
def clean_text : Option String → String
  | none => ""
  | some s => String.mk (pyStrip (subWS s.data))

/-- Models str.lower on one character (ASCII range; code points whose
lowercase differs outside ASCII do not affect the error-title test). -/
def pyLowerChar (c : Char) : Char :=
  if 'A' ≤ c ∧ c ≤ 'Z' then Char.ofNat (c.toNat + 32) else c

/-- Models str.lower. -/
def pyLower (s : String) : String := String.mk (s.data.map pyLowerChar)

/-- Models str.startswith. -/
def pyStartsWith (s p : String) : Bool := p.data.isPrefixOf s.data

/-- Model of xml.etree.ElementTree.Element: a tag, an attribute list, an
optional text payload, and the list of direct children in document order. -/
inductive Element : Type where
  | mk (tag : String) (attrib : List (String × String)) (text : Option String)
      (children : List Element)

def Element.tag : Element → String
  | .mk t _ _ _ => t

def Element.attrib : Element → List (String × String)
  | .mk _ a _ _ => a

def Element.text : Element → Option String
  | .mk _ _ tx _ => tx

def Element.children : Element → List Element
  | .mk _ _ _ ch => ch

/-- Models Element.get(key): the attribute value, or None when absent. -/
def Element.get (e : Element) (key : String) : Option String :=
  (e.attrib.find? (fun p => p.1 == key)).map (fun p => p.2)

/-- Models Element.findall(tag): direct children with the given tag, in
document order. -/
def Element.findall (e : Element) (t : String) : List Element :=
  e.children.filter (fun c => c.tag == t)

/-- Models Element.find(tag): the first direct child with the given tag. -/
def Element.find (e : Element) (t : String) : Option Element :=
  e.children.find? (fun c => c.tag == t)

/-- Models Element.findtext(tag) with default None: the text of the first
matching child, the empty string when that child has no text, and None when
there is no matching child. -/
def Element.findtext (e : Element) (t : String) : Option String :=
  (e.find t).map (fun c => c.text.getD (""))

/-- The SEARCH_QUERY constant, pieces concatenated exactly as in the source. -/
def SEARCH_QUERY : String :=
  "all:\"maternal health\" OR all:\"maternal mortality\" OR all:\"maternal morbidity\""
  ++ " OR all:\"pregnancy outcome\" OR all:\"prenatal care\" OR all:\"antenatal care\""
  ++ " OR all:\"obstetric\" OR all:\"preeclampsia\" OR all:\"gestational diabetes\""
  ++ " OR all:\"postpartum\" OR all:\"perinatal\" OR all:\"neonatal mortality\""
  ++ " OR all:\"cesarean\" OR all:\"preterm birth\" OR all:\"fetal health\""
  ++ " OR all:\"endometriosis\" OR all:\"postpartum depression\""

def MAX_RESULTS : Nat := 30

def SORT_BY : String := "submittedDate"

def SORT_ORDER : String := "descending"

def ARXIV_API_URL : String := "http://export.arxiv.org/api/query"

/-- The Atom namespace tag marker (braces written as hex escapes). -/
def ATOM_NS : String := "\x7bhttp://www.w3.org/2005/Atom\x7d"

/-- Output path for the JSON artifact; the directory component (the directory
holding the script, computed at run time) is abstracted away. -/
def OUTPUT_JSON : String := "papers.json"

/-- Output path for the script-embeddable artifact, directory abstracted. -/
def OUTPUT_JS : String := "papers.js"

/-- Uppercase hex digit, as used by percent-encoding. -/
def hexUpper (n : Nat) : Char :=
  if n < 10 then Char.ofNat (48 + n) else Char.ofNat (55 + n)

/-- UTF-8 byte sequence of a code point, as natural numbers. -/
def utf8Bytes (n : Nat) : List Nat :=
  if n < 128 then [n]
  else if n < 2048 then [192 + n / 64, 128 + n % 64]
  else if n < 65536 then [224 + n / 4096, 128 + n / 64 % 64, 128 + n % 64]
  else [240 + n / 262144, 128 + n / 4096 % 64, 128 + n / 64 % 64, 128 + n % 64]

/-- Characters urllib.request.quote never encodes: letters, digits, and the
four always-safe punctuation characters. -/
def isUnreserved (c : Char) : Bool :=
  decide (('A' ≤ c ∧ c ≤ 'Z') ∨ ('a' ≤ c ∧ c ≤ 'z') ∨ ('0' ≤ c ∧ c ≤ '9') ∨
    c = '_' ∨ c = '.' ∨ c = '-' ∨ c = '~')

/-- Models urllib.request.quote with safe given as the empty string:
percent-encode every UTF-8 byte of every non-unreserved character. -/
def pyQuote (s : String) : String :=
  String.mk ((s.data.map (fun c =>
    if isUnreserved c then [c]
    else ((utf8Bytes c.toNat).map
      (fun b => ['%', hexUpper (b / 16), hexUpper (b % 16)])).flatten)).flatten)

/-- Translation of build_query_url. -/
def build_query_url : String :=
  ARXIV_API_URL ++ "?" ++ "search_query=" ++ pyQuote SEARCH_QUERY
  ++ "&sortBy=" ++ SORT_BY ++ "&sortOrder=" ++ SORT_ORDER
  ++ "&start=0" ++ "&max_results=" ++ toString MAX_RESULTS

/-- The record built by parse_entry, one per feed entry. -/
structure Paper where
  title : String
  authors : List String
  abstract : String
  published : String
  abstract_url : String
  pdf_url : String
  categories : List String
deriving DecidableEq

/-- Truthiness of an optional string in Python: None and the empty string are
falsy, everything else is truthy. -/
def pyTruthy : Option String → Bool
  | none => false
  | some s => s != ""

/-- The pdf-link loop of parse_entry: starting from the empty string, scan the
link elements and on the first one whose title attribute equals pdf take its
href attribute (default empty) and stop. -/
def pdfUrlOfLinks : List Element → String
  | [] => ""
  | l :: ls =>
    if l.get ("title") == some "pdf" then (l.get ("href")).getD ("")
    else pdfUrlOfLinks ls

/-- Translation of parse_entry. -/
def parse_entry (entry : Element) : Paper :=
  let title := clean_text (entry.findtext (ATOM_NS ++ "title"))
  let authors := (entry.findall (ATOM_NS ++ "author")).map
    (fun author => clean_text (author.findtext (ATOM_NS ++ "name")))
  let abstract := clean_text (entry.findtext (ATOM_NS ++ "summary"))
  let published := (entry.findtext (ATOM_NS ++ "published")).getD ("")
  let abstract_url := clean_text (entry.findtext (ATOM_NS ++ "id"))
  let pdf_url := pdfUrlOfLinks (entry.findall (ATOM_NS ++ "link"))
  let categories := ((entry.findall (ATOM_NS ++ "category")).filter
    (fun cat => pyTruthy (cat.get ("term")))).map
    (fun cat => (cat.get ("term")).getD (""))
  { title := title, authors := authors, abstract := abstract,
    published := published, abstract_url := abstract_url,
    pdf_url := pdf_url, categories := categories }

/-- The error pseudo-entry test used in fetch_papers: the lowercased title
starts with the prefix error. -/
def isErrorEntry (p : Paper) : Bool := pyStartsWith (pyLower p.title) ("error")

/-- Outcome of the single urlopen call in fetch_papers: either a response
with an HTTP status and an already-parsed XML body, or a raised
network or transport exception with its message. -/
inductive UrlopenResult : Type where
  | response (status : Nat) (body : Element)
  | raised (message : String)

/-- The entry loop of fetch_papers: parse each entry, skip error
pseudo-entries (collecting their stderr diagnostics), keep the rest in
order. -/
def processEntries : List Element → List Paper × List String
  | [] => ([], [])
  | e :: es =>
    let paper := parse_entry e
    let rest := processEntries es
    if isErrorEntry paper then
      (rest.1, ("API error entry: " ++ paper.title) :: rest.2)
    else (paper :: rest.1, rest.2)

/-- Result of fetch_papers: either sys.exit with a code, or the paper list,
together with the console lines produced. -/
structure FetchOutcome where
  result : Except Nat (List Paper)
  stdout : List String
  stderr : List String

/-- Translation of fetch_papers over the outcome of the one network call. -/
def fetch_papers (r : UrlopenResult) : FetchOutcome :=
  let fetching := "Fetching: " ++ build_query_url
  match r with
  | .raised exc =>
    { result := .error 1, stdout := [fetching],
      stderr := ["Error fetching arXiv API: " ++ exc] }
  | .response status body =>
    if status ≠ 200 then
      { result := .error 1, stdout := [fetching],
        stderr := ["Error: HTTP " ++ toString status] }
    else
      let entries := body.findall (ATOM_NS ++ "entry")
      if entries.isEmpty then
        { result := .ok [],
          stdout := [fetching, "Warning: No entries returned by arXiv API."],
          stderr := [] }
      else
        let pr := processEntries entries
        { result := .ok pr.1,
          stdout := [fetching, "Fetched " ++ toString pr.1.length ++ " papers."],
          stderr := pr.2 }

/-- The output dictionary built in main. -/
structure FeedResult where
  last_updated : String
  query : String
  papers : List Paper
deriving DecidableEq

/-- Lowercase hex digit, as used by json.dumps control-character escapes. -/
def jsonHexDigit (n : Nat) : Char :=
  if n < 10 then Char.ofNat (48 + n) else Char.ofNat (87 + n)

/-- Escape of one character under json.dumps with ensure_ascii False: quote,
backslash and control characters are escaped, everything else is literal. -/
def jsonEscChar (c : Char) : List Char :=
  if c = '"' then ['\\', '"']
  else if c = '\\' then ['\\', '\\']
  else if c = '\n' then ['\\', 'n']
  else if c = '\t' then ['\\', 't']
  else if c = '\r' then ['\\', 'r']
  else if c = '\x08' then ['\\', 'b']
  else if c = '\x0c' then ['\\', 'f']
  else if c.toNat < 32 then
    ['\\', 'u', '0', '0', jsonHexDigit (c.toNat / 16), jsonHexDigit (c.toNat % 16)]
  else [c]

/-- JSON string literal for s, per json.dumps with ensure_ascii False. -/
def jsonQuote (s : String) : String :=
  "\"" ++ String.mk ((s.data.map jsonEscChar).flatten) ++ "\""

/-- A run of n spaces. -/
def indentStr (n : Nat) : String := String.mk (List.replicate n ' ')

/-- json.dumps rendering, at indent width two, of a list of strings whose
enclosing key sits at indent ind: the empty list renders as a bare pair of
brackets, otherwise one item per line at indent ind plus two. -/
def jsonStrList (ind : Nat) (xs : List String) : String :=
  if xs.isEmpty then "[]"
  else "[\n"
    ++ String.intercalate (",\n") (xs.map (fun x => indentStr (ind + 2) ++ jsonQuote x))
    ++ "\n" ++ indentStr ind ++ "]"

/-- json.dumps rendering of one paper object whose opening brace sits at
indent ind (keys at ind plus two, closing brace back at ind). -/
def jsonPaper (ind : Nat) (p : Paper) : String :=
  "\x7b\n"
  ++ indentStr (ind + 2) ++ "\"title\": " ++ jsonQuote p.title ++ ",\n"
  ++ indentStr (ind + 2) ++ "\"authors\": " ++ jsonStrList (ind + 2) p.authors ++ ",\n"
  ++ indentStr (ind + 2) ++ "\"abstract\": " ++ jsonQuote p.abstract ++ ",\n"
  ++ indentStr (ind + 2) ++ "\"published\": " ++ jsonQuote p.published ++ ",\n"
  ++ indentStr (ind + 2) ++ "\"abstract_url\": " ++ jsonQuote p.abstract_url ++ ",\n"
  ++ indentStr (ind + 2) ++ "\"pdf_url\": " ++ jsonQuote p.pdf_url ++ ",\n"
  ++ indentStr (ind + 2) ++ "\"categories\": " ++ jsonStrList (ind + 2) p.categories ++ "\n"
  ++ indentStr ind ++ "\x7d"

/-- Models json.dumps(output, indent two, ensure_ascii False) for the output
dictionary built in main. -/
def jsonDumps (o : FeedResult) : String :=
  "\x7b\n  \"last_updated\": " ++ jsonQuote o.last_updated
  ++ ",\n  \"query\": " ++ jsonQuote o.query
  ++ ",\n  \"papers\": "
  ++ (if o.papers.isEmpty then "[]"
      else "[\n"
        ++ String.intercalate (",\n") (o.papers.map (fun p => "    " ++ jsonPaper 4 p))
        ++ "\n  ]")
  ++ "\n\x7d"

/-- Observable result of one run of main: process exit code, contents written
to the two output files (None when the file is not written), and console
lines. -/
structure RunResult where
  exitCode : Nat
  jsonFile : Option String
  jsFile : Option String
  stdout : List String
  stderr : List String
deriving DecidableEq

/-- Translation of main: run fetch_papers on the network outcome; on sys.exit
no file is written, otherwise serialize once and write both files, the second
wrapping the same JSON text in a const assignment. The timestamp argument
stands for the formatted current UTC time. -/
def main (r : UrlopenResult) (now : String) : RunResult :=
  let f := fetch_papers r
  match f.result with
  | .error code =>
    { exitCode := code, jsonFile := none, jsFile := none,
      stdout := f.stdout, stderr := f.stderr }
  | .ok papers =>
    let output : FeedResult :=
      { last_updated := now, query := SEARCH_QUERY, papers := papers }
    let json_str := jsonDumps output
    { exitCode := 0,
      jsonFile := some json_str,
      jsFile := some ("const PAPERS_DATA = " ++ json_str ++ ";\n"),
      stdout := f.stdout ++ ["Wrote " ++ toString papers.length ++ " papers to "
        ++ OUTPUT_JSON ++ " and " ++ OUTPUT_JS],
      stderr := f.stderr }

/-- Spec-side characterization for pdf_url: the first link element whose
title attribute equals pdf. -/
def firstPdfLink (e : Element) : Option Element :=
  (e.findall (ATOM_NS ++ "link")).find? (fun l => l.get ("title") == some "pdf")

/-- Spec-side cleanliness of a string: every whitespace character in it is a
plain space, no two adjacent characters are both whitespace, and neither the
first nor the last character is whitespace. -/
def CleanStr (s : String) : Prop :=
  (∀ c ∈ s.data, isPySpace c = true → c = ' ')
  ∧ List.Chain' (fun a b => isPySpace a = false ∨ isPySpace b = false) s.data
  ∧ (∀ c, s.data.head? = some c → isPySpace c = false)
  ∧ (∀ c, s.data.getLast? = some c → isPySpace c = false)

lemma subWS_cons_of_not {d : Char} (cs : List Char) (h : isPySpace d = false) :
    subWS (d :: cs) = d :: subWS cs := by
  cases cs <;> simp [subWS, h]

lemma subWS_space_mem : ∀ (l : List Char), ∀ c ∈ subWS l, isPySpace c = true → c = ' ' := by
  intro l
  induction l with
  | nil => intro c hc _; simp [subWS] at hc
  | cons a as ih =>
    cases as with
    | nil =>
      intro c hc hs
      cases ha : isPySpace a with
      | true => simp [subWS, ha] at hc; exact hc
      | false =>
        simp [subWS, ha] at hc
        rw [hc] at hs
        rw [hs] at ha
        exact absurd ha (by simp)
    | cons b bs =>
      intro c hc hs
      cases ha : isPySpace a with
      | true =>
        cases hb : isPySpace b with
        | true =>
          rw [show subWS (a :: b :: bs) = subWS (b :: bs) by simp [subWS, ha, hb]] at hc
          exact ih c hc hs
        | false =>
          rw [show subWS (a :: b :: bs) = ' ' :: subWS (b :: bs) by
            simp [subWS, ha, hb]] at hc
          rcases List.mem_cons.mp hc with h1 | h1
          · exact h1
          · exact ih c h1 hs
      | false =>
        rw [show subWS (a :: b :: bs) = a :: subWS (b :: bs) by simp [subWS, ha]] at hc
        rcases List.mem_cons.mp hc with h1 | h1
        · rw [h1] at hs; rw [hs] at ha; exact absurd ha (by simp)
        · exact ih c h1 hs

lemma chain_cons_of_all {α : Type} {R : α → α → Prop} {x : α} {l : List α}
    (hx : ∀ y, R x y) (hl : List.Chain' R l) : List.Chain' R (x :: l) := by
  cases l with
  | nil => exact List.chain'_singleton x
  | cons y ys => exact List.chain'_cons.mpr ⟨hx y, hl⟩

lemma subWS_chain : ∀ l : List Char,
    List.Chain' (fun a b => isPySpace a = false ∨ isPySpace b = false) (subWS l) := by
  intro l
  induction l with
  | nil => simp [subWS]
  | cons a as ih =>
    cases as with
    | nil =>
      cases ha : isPySpace a <;>
        simp [subWS, ha, List.chain'_singleton]
    | cons b bs =>
      cases ha : isPySpace a with
      | true =>
        cases hb : isPySpace b with
        | true =>
          rw [show subWS (a :: b :: bs) = subWS (b :: bs) by simp [subWS, ha, hb]]
          exact ih
        | false =>
          rw [show subWS (a :: b :: bs) = ' ' :: subWS (b :: bs) by
            simp [subWS, ha, hb], subWS_cons_of_not bs hb]
          refine List.chain'_cons.mpr ⟨Or.inr hb, ?_⟩
          rw [← subWS_cons_of_not bs hb]
          exact ih
      | false =>
        rw [show subWS (a :: b :: bs) = a :: subWS (b :: bs) by simp [subWS, ha]]
        exact chain_cons_of_all (fun y => Or.inl ha) ih

lemma head_dropWhile_false {α : Type} (p : α → Bool) :
    ∀ (l : List α) (c : α), (l.dropWhile p).head? = some c → p c = false := by
  intro l
  induction l with
  | nil => intro c h; simp at h
  | cons a as ih =>
    intro c h
    cases ha : p a with
    | true =>
      simp [List.dropWhile_cons, ha] at h
      exact ih c h
    | false =>
      simp [List.dropWhile_cons, ha] at h
      rw [← h]
      exact ha

lemma getLast_eq_of_isSuffix {α : Type} {l m : List α} (h : l <:+ m) (hl : l ≠ []) :
    m.getLast? = l.getLast? := by
  obtain ⟨t, rfl⟩ := h
  rw [List.getLast?_append]
  cases hx : l.getLast? with
  | none => exact absurd (List.getLast?_eq_none_iff.mp hx) hl
  | some c => simp

lemma cleanStr_clean_text (t : Option String) : CleanStr (clean_text t) := by
  cases t with
  | none =>
    refine ⟨?_, ?_, ?_, ?_⟩ <;> simp [CleanStr, clean_text]
  | some s =>
    have hr : (clean_text (some s)).data
        = (((subWS s.data).dropWhile isPySpace).reverse.dropWhile isPySpace).reverse := rfl
    refine ⟨?_, ?_, ?_, ?_⟩
    · intro c hc hs
      apply subWS_space_mem s.data c ?_ hs
      rw [hr] at hc
      have h2 := List.mem_reverse.mp hc
      have h3 := List.dropWhile_subset isPySpace h2
      have h4 := List.mem_reverse.mp h3
      exact List.dropWhile_subset isPySpace h4
    · rw [hr]
      have c0 := subWS_chain s.data
      have c1 := c0.suffix (List.dropWhile_suffix isPySpace)
      have c1r := List.chain'_reverse.mpr (c1.imp fun a b h => Or.symm h)
      have c2 := c1r.suffix (List.dropWhile_suffix isPySpace)
      exact List.chain'_reverse.mpr (c2.imp fun a b h => Or.symm h)
    · intro c hc
      rw [hr, List.head?_reverse] at hc
      by_cases h2 : ((subWS s.data).dropWhile isPySpace).reverse.dropWhile isPySpace = []
      · rw [h2] at hc; simp at hc
      · have h3 : ((subWS s.data).dropWhile isPySpace).reverse.getLast? = some c := by
          rw [getLast_eq_of_isSuffix (List.dropWhile_suffix isPySpace) h2]
          exact hc
        rw [List.getLast?_reverse] at h3
        exact head_dropWhile_false isPySpace (subWS s.data) c h3
    · intro c hc
      rw [hr, List.getLast?_reverse] at hc
      exact head_dropWhile_false isPySpace ((subWS s.data).dropWhile isPySpace).reverse c hc

/-- Sample link elements for concrete runs. -/
def linkOther : Element :=
  Element.mk (ATOM_NS ++ "link") [("title", "other"), ("href", "x")] none []

def linkPdfNoHref : Element :=
  Element.mk (ATOM_NS ++ "link") [("title", "pdf")] none []

def linkPdfHref : Element :=
  Element.mk (ATOM_NS ++ "link") [("title", "pdf"), ("href", "http://arxiv.org/pdf/1234.5678v1")] none []

/-- An author element with no name child. -/
def authorNoName : Element := Element.mk (ATOM_NS ++ "author") [] none []

/-- A sample well-formed entry whose first pdf-titled link has no href and
whose second author has no name child. -/
def entryA : Element :=
  Element.mk (ATOM_NS ++ "entry") [] none
    [ Element.mk (ATOM_NS ++ "title") [] (some "  A\tPaper\n Title ") [],
      Element.mk (ATOM_NS ++ "author") [] none
        [Element.mk (ATOM_NS ++ "name") [] (some " Jane\n Doe ") []],
      authorNoName,
      Element.mk (ATOM_NS ++ "summary") [] (some " An  abstract\twith   spaces ") [],
      Element.mk (ATOM_NS ++ "published") [] (some "  2024-01-01T00:00:00Z\n") [],
      Element.mk (ATOM_NS ++ "id") [] (some "http://arxiv.org/abs/1234.5678") [],
      linkOther,
      linkPdfNoHref,
      linkPdfHref,
      Element.mk (ATOM_NS ++ "category") [("term", "cs.LG")] none [],
      Element.mk (ATOM_NS ++ "category") [("term", "")] none [],
      Element.mk (ATOM_NS ++ "category") [] none [] ]

/-- A sample entry whose first pdf-titled link carries an href. -/
def entryB : Element :=
  Element.mk (ATOM_NS ++ "entry") [] none
    [ Element.mk (ATOM_NS ++ "title") [] (some "Second paper") [],
      Element.mk (ATOM_NS ++ "summary") [] (some "s") [],
      Element.mk (ATOM_NS ++ "published") [] (some "2024-02-02T00:00:00Z") [],
      Element.mk (ATOM_NS ++ "id") [] (some "http://arxiv.org/abs/2") [],
      linkPdfHref ]

/-- A sample error pseudo-entry. -/
def entryErr : Element :=
  Element.mk (ATOM_NS ++ "entry") [] none
    [Element.mk (ATOM_NS ++ "title") [] (some "Error: malformed query") []]

/-- A sample feed root with no entry children. -/
def rootEmpty : Element := Element.mk (ATOM_NS ++ "feed") [] none []

/-- The pdf-link loop agrees with the first-match characterization. -/
lemma pdfUrlOfLinks_eq_find (links : List Element) :
    pdfUrlOfLinks links
      = match links.find? (fun l => l.get ("title") == some "pdf") with
        | none => ""
        | some l => (l.get ("href")).getD ("") := by
  induction links with
  | nil => rfl
  | cons l ls ih =>
    cases h : (l.get ("title") == some "pdf") with
    | true => simp [pdfUrlOfLinks, List.find?_cons, h]
    | false => simp [pdfUrlOfLinks, List.find?_cons, h, ih]

/-- The pdf-link loop ignores everything after the first pdf-titled link. -/
lemma pdfUrlOfLinks_append (post : List Element) (l : Element)
    (hl : (l.get ("title") == some "pdf") = true) :
    ∀ pre : List Element, (∀ p ∈ pre, (p.get ("title") == some "pdf") = false) →
      pdfUrlOfLinks (pre ++ l :: post) = (l.get ("href")).getD ("") := by
  intro pre
  induction pre with
  | nil => intro _; simp [pdfUrlOfLinks, hl]
  | cons q qs ih =>
    intro hpre
    have hq := hpre q (List.mem_cons_self q qs)
    rw [List.cons_append]
    rw [show pdfUrlOfLinks (q :: (qs ++ l :: post))
        = pdfUrlOfLinks (qs ++ l :: post) by simp [pdfUrlOfLinks, hq]]
    exact ih (fun p hp => hpre p (List.mem_cons_of_mem q hp))

/-- C1: when no entry of the feed parses to a title that case-insensitively
begins with error, the parse and filter loop returns exactly one paper per
entry, in entry order; every paper the loop outputs has a non-error title
(so error-titled entries are excluded); and on a nonempty 200 feed
fetch_papers returns exactly the loop's output. -/
theorem processEntries_no_error_preserves (entries : List Element) :
    ((∀ e ∈ entries, isErrorEntry (parse_entry e) = false) →
      (processEntries entries).1 = entries.map parse_entry)
    ∧ (∀ p ∈ (processEntries entries).1, isErrorEntry p = false)
    ∧ (∀ root : Element, (root.findall (ATOM_NS ++ "entry")).isEmpty = false →
        (fetch_papers (.response 200 root)).result
          = .ok (processEntries (root.findall (ATOM_NS ++ "entry"))).1) := by
  refine ⟨?_, ?_, ?_⟩
  · induction entries with
    | nil => intro _; rfl
    | cons e es ih =>
      intro h
      have he := h e (List.mem_cons_self e es)
      have ihres := ih (fun x hx => h x (List.mem_cons_of_mem e hx))
      simp [processEntries, he, ihres]
  · induction entries with
    | nil => intro p hp; simp [processEntries] at hp
    | cons e es ih =>
      intro p hp
      cases he : isErrorEntry (parse_entry e) with
      | true =>
        simp [processEntries, he] at hp
        exact ih p hp
      | false =>
        simp [processEntries, he] at hp
        rcases hp with h1 | h1
        · rw [h1]; exact he
        · exact ih p h1
  · intro root hroot
    simp [fetch_papers, hroot]

set_option maxRecDepth 100000 in
/-- Witness for C1: a concrete two-entry feed maps to two papers in order,
and a feed led by an error pseudo-entry drops exactly that entry. -/
theorem processEntries_no_error_preserves_w :
    (processEntries [entryA, entryB]).1 = [entryA, entryB].map parse_entry
    ∧ (processEntries [entryErr, entryA]).1 = [parse_entry entryA] :=
  ⟨(processEntries_no_error_preserves [entryA, entryB]).1 (by decide), by decide⟩

/-- C2: for every parsed entry the title, every author name and the abstract
equal clean_text of the corresponding element text, and each of these fields
is whitespace-clean: whitespace appears only as single interior spaces,
never leading or trailing. -/
theorem parse_entry_fields_clean (e : Element) :
    ((parse_entry e).title = clean_text (e.findtext (ATOM_NS ++ "title"))
      ∧ (parse_entry e).authors = (e.findall (ATOM_NS ++ "author")).map
          (fun author => clean_text (author.findtext (ATOM_NS ++ "name")))
      ∧ (parse_entry e).abstract = clean_text (e.findtext (ATOM_NS ++ "summary")))
    ∧ (CleanStr (parse_entry e).title
      ∧ (∀ a ∈ (parse_entry e).authors, CleanStr a)
      ∧ CleanStr (parse_entry e).abstract) := by
  refine ⟨⟨rfl, rfl, rfl⟩, cleanStr_clean_text _, ?_, cleanStr_clean_text _⟩
  intro a ha
  have hA : (parse_entry e).authors = (e.findall (ATOM_NS ++ "author")).map
      (fun author => clean_text (author.findtext (ATOM_NS ++ "name"))) := rfl
  rw [hA] at ha
  obtain ⟨x, _, hx⟩ := List.mem_map.mp ha
  rw [← hx]
  exact cleanStr_clean_text _

set_option maxRecDepth 100000 in
/-- Witness for C2: the sample title with tabs, newlines and double spaces
comes out clean and equal to its collapsed, trimmed form. -/
theorem parse_entry_fields_clean_w :
    CleanStr (parse_entry entryA).title
    ∧ (parse_entry entryA).title = "A Paper Title" :=
  ⟨(parse_entry_fields_clean entryA).2.1, by decide⟩

/-- C3: pdf_url equals the href attribute of the first link element whose
title attribute is pdf, and equals the empty string when no link has title
pdf. -/
theorem pdf_url_first_link (e : Element) :
    (∀ l u, firstPdfLink e = some l → l.get ("href") = some u →
      (parse_entry e).pdf_url = u)
    ∧ (firstPdfLink e = none → (parse_entry e).pdf_url = "") := by
  have hp : (parse_entry e).pdf_url = pdfUrlOfLinks (e.findall (ATOM_NS ++ "link")) := rfl
  constructor
  · intro l u hf hh
    rw [hp, pdfUrlOfLinks_eq_find]
    rw [show (e.findall (ATOM_NS ++ "link")).find?
        (fun l => l.get ("title") == some "pdf") = some l from hf]
    simp [hh]
  · intro hf
    rw [hp, pdfUrlOfLinks_eq_find]
    rw [show (e.findall (ATOM_NS ++ "link")).find?
        (fun l => l.get ("title") == some "pdf") = none from hf]

set_option maxRecDepth 100000 in
/-- Witness for C3: the sample entry whose first pdf link carries an href
gets that href as pdf_url. -/
theorem pdf_url_first_link_w :
    (parse_entry entryB).pdf_url = "http://arxiv.org/pdf/1234.5678v1" :=
  (pdf_url_first_link entryB).1 linkPdfHref ("http://arxiv.org/pdf/1234.5678v1")
    (by rfl) (by rfl)

/-- C4: published is the raw text of the published element, neither collapsed
nor trimmed, and the empty string when the element is absent. -/
theorem published_raw (e : Element) :
    (∀ t, e.findtext (ATOM_NS ++ "published") = some t → (parse_entry e).published = t)
    ∧ (e.findtext (ATOM_NS ++ "published") = none → (parse_entry e).published = "") := by
  have hp : (parse_entry e).published = (e.findtext (ATOM_NS ++ "published")).getD ("") := rfl
  constructor
  · intro t ht; rw [hp, ht]; rfl
  · intro ht; rw [hp, ht]; rfl

set_option maxRecDepth 100000 in
/-- Witness for C4: the sample's published text, with leading spaces and a
trailing newline, is preserved verbatim. -/
theorem published_raw_w :
    (parse_entry entryA).published = "  2024-01-01T00:00:00Z\n" :=
  (published_raw entryA).1 ("  2024-01-01T00:00:00Z\n") (by rfl)

/-- The category comprehension agrees with one filterMap over the term
attribute. -/
lemma filter_map_eq_filterMap (cats : List Element) :
    (cats.filter (fun cat => pyTruthy (cat.get ("term")))).map
      (fun cat => (cat.get ("term")).getD (""))
    = cats.filterMap (fun cat => match cat.get ("term") with
        | none => none
        | some t => if t = "" then none else some t) := by
  induction cats with
  | nil => rfl
  | cons c cs ih =>
    cases hter : c.get ("term") with
    | none =>
      have hcond : pyTruthy none = false := rfl
      simp [List.filter_cons, List.filterMap_cons, hter, hcond, ih]
    | some t =>
      by_cases ht : t = ""
      · subst ht
        have hcond : pyTruthy (some "") = false := rfl
        simp [List.filter_cons, List.filterMap_cons, hter, hcond, ih]
      · have hcond : pyTruthy (some t) = true := by simp [pyTruthy, ht]
        simp [List.filter_cons, List.filterMap_cons, hter, hcond, ht, ih]

/-- C5: categories are exactly the term attributes of the category elements
whose term attribute is present and non-empty, in document order; elements
with a missing or empty term contribute nothing. -/
theorem categories_exact (e : Element) :
    (parse_entry e).categories
      = (e.findall (ATOM_NS ++ "category")).filterMap
          (fun cat => match cat.get ("term") with
            | none => none
            | some t => if t = "" then none else some t) := by
  have hc : (parse_entry e).categories
      = ((e.findall (ATOM_NS ++ "category")).filter
          (fun cat => pyTruthy (cat.get ("term")))).map
          (fun cat => (cat.get ("term")).getD ("")) := rfl
  rw [hc]
  exact filter_map_eq_filterMap (e.findall (ATOM_NS ++ "category"))

/-- Shape of main when fetch_papers succeeds with a paper list. -/
lemma main_json (r : UrlopenResult) (now : String) (papers : List Paper)
    (h : (fetch_papers r).result = .ok papers) :
    main r now
      = { exitCode := 0,
          jsonFile := some (jsonDumps ⟨now, SEARCH_QUERY, papers⟩),
          jsFile := some ("const PAPERS_DATA = "
            ++ jsonDumps ⟨now, SEARCH_QUERY, papers⟩ ++ ";\n"),
          stdout := (fetch_papers r).stdout
            ++ ["Wrote " ++ toString papers.length ++ " papers to "
              ++ OUTPUT_JSON ++ " and " ++ OUTPUT_JS],
          stderr := (fetch_papers r).stderr } := by
  simp [main, h]

/-- Shape of main when fetch_papers exits with a code. -/
lemma main_error (r : UrlopenResult) (now : String) (code : Nat)
    (h : (fetch_papers r).result = .error code) :
    main r now
      = { exitCode := code, jsonFile := none, jsFile := none,
          stdout := (fetch_papers r).stdout,
          stderr := (fetch_papers r).stderr } := by
  simp [main, h]

/-- C6: whenever the JSON output file is written with text j, the script
output file is written with exactly the const assignment prefix, j, a
semicolon and a newline; and when the JSON file is not written the script
file is not written either.  Both files therefore embed the same JSON
payload on every run. -/
theorem js_wraps_json (r : UrlopenResult) (now : String) :
    (∀ j, (main r now).jsonFile = some j →
      (main r now).jsFile = some ("const PAPERS_DATA = " ++ j ++ ";\n"))
    ∧ ((main r now).jsonFile = none → (main r now).jsFile = none) := by
  constructor
  · intro j hj
    cases hres : (fetch_papers r).result with
    | error code => rw [main_error r now code hres] at hj; simp at hj
    | ok papers =>
      rw [main_json r now papers hres] at hj
      rw [main_json r now papers hres]
      simp only [Option.some.injEq] at hj
      subst hj
      rfl
  · intro hj
    cases hres : (fetch_papers r).result with
    | error code => rw [main_error r now code hres]
    | ok papers => rw [main_json r now papers hres] at hj; simp at hj

set_option maxRecDepth 100000 in
/-- Witness for C6 on a concrete empty-feed run. -/
theorem js_wraps_json_w :
    (main (.response 200 rootEmpty) ("T")).jsFile
      = some ("const PAPERS_DATA = " ++ jsonDumps ⟨"T", SEARCH_QUERY, []⟩ ++ ";\n") :=
  (js_wraps_json (.response 200 rootEmpty) ("T")).1
    (jsonDumps ⟨"T", SEARCH_QUERY, []⟩) (by rfl)

/-- C7: a 200 response whose feed has no entry elements produces the warning
line, an ok empty paper list (not an error), exit code 0, and both output
files written, the JSON payload carrying an empty papers array. -/
theorem empty_feed_success (root : Element) (now : String)
    (h : root.findall (ATOM_NS ++ "entry") = []) :
    (fetch_papers (.response 200 root)).result = .ok []
    ∧ "Warning: No entries returned by arXiv API."
        ∈ (fetch_papers (.response 200 root)).stdout
    ∧ (main (.response 200 root) now).exitCode = 0
    ∧ (main (.response 200 root) now).jsonFile = some (jsonDumps ⟨now, SEARCH_QUERY, []⟩)
    ∧ (main (.response 200 root) now).jsFile
        = some ("const PAPERS_DATA = " ++ jsonDumps ⟨now, SEARCH_QUERY, []⟩ ++ ";\n")
    ∧ jsonDumps ⟨now, SEARCH_QUERY, []⟩
        = "\x7b\n  \"last_updated\": " ++ jsonQuote now ++ ",\n  \"query\": "
          ++ jsonQuote SEARCH_QUERY ++ ",\n  \"papers\": " ++ "[]" ++ "\n\x7d" := by
  have hf : fetch_papers (.response 200 root)
      = { result := .ok [],
          stdout := ["Fetching: " ++ build_query_url,
            "Warning: No entries returned by arXiv API."],
          stderr := [] } := by
    simp [fetch_papers, h]
  have hm := main_json (.response 200 root) now [] (by rw [hf])
  refine ⟨by rw [hf], by rw [hf]; simp, by rw [hm], by rw [hm], by rw [hm], ?_⟩
  simp [jsonDumps]

/-- Witness for C7 at the concrete empty feed. -/
theorem empty_feed_success_w :
    (fetch_papers (.response 200 rootEmpty)).result = .ok []
    ∧ (main (.response 200 rootEmpty) ("T")).exitCode = 0 :=
  ⟨(empty_feed_success rootEmpty ("T") (by rfl)).1,
   (empty_feed_success rootEmpty ("T") (by rfl)).2.2.1⟩

/-- C8: a non-200 response and a raised network or transport error both lead
to exit code 1 with a diagnostic on stderr, and neither output file is
written. -/
theorem fetch_failure_no_outputs :
    (∀ (s : Nat) (body : Element) (now : String), s ≠ 200 →
      (main (.response s body) now).exitCode = 1
      ∧ (main (.response s body) now).jsonFile = none
      ∧ (main (.response s body) now).jsFile = none
      ∧ (main (.response s body) now).stderr = ["Error: HTTP " ++ toString s])
    ∧ (∀ (msg now : String),
      (main (.raised msg) now).exitCode = 1
      ∧ (main (.raised msg) now).jsonFile = none
      ∧ (main (.raised msg) now).jsFile = none
      ∧ (main (.raised msg) now).stderr = ["Error fetching arXiv API: " ++ msg]) := by
  constructor
  · intro s body now hs
    have hf : fetch_papers (.response s body)
        = { result := .error 1, stdout := ["Fetching: " ++ build_query_url],
            stderr := ["Error: HTTP " ++ toString s] } := by
      simp [fetch_papers, hs]
    have hm := main_error (.response s body) now 1 (by rw [hf])
    rw [hm, hf]
    exact ⟨rfl, rfl, rfl, rfl⟩
  · intro msg now
    have hf : fetch_papers (.raised msg)
        = { result := .error 1, stdout := ["Fetching: " ++ build_query_url],
            stderr := ["Error fetching arXiv API: " ++ msg] } := by
      simp [fetch_papers]
    have hm := main_error (.raised msg) now 1 (by rw [hf])
    rw [hm, hf]
    exact ⟨rfl, rfl, rfl, rfl⟩

/-- Witness for C8 at HTTP status 404. -/
theorem fetch_failure_no_outputs_w :
    (main (.response 404 rootEmpty) ("T")).exitCode = 1
    ∧ (main (.response 404 rootEmpty) ("T")).jsonFile = none
    ∧ (main (.response 404 rootEmpty) ("T")).jsFile = none :=
  ⟨(fetch_failure_no_outputs.1 404 rootEmpty ("T") (by decide)).1,
   (fetch_failure_no_outputs.1 404 rootEmpty ("T") (by decide)).2.1,
   (fetch_failure_no_outputs.1 404 rootEmpty ("T") (by decide)).2.2.1⟩

/-- C9: the authors list has exactly one element per author child of the
entry, in document order, and an author child with no name child contributes
the empty string at its position rather than being dropped. -/
theorem authors_one_per_author (e : Element) :
    (parse_entry e).authors.length = (e.findall (ATOM_NS ++ "author")).length
    ∧ (∀ (i : Nat) (a : Element),
        (e.findall (ATOM_NS ++ "author"))[i]? = some a →
        a.find (ATOM_NS ++ "name") = none →
        (parse_entry e).authors[i]? = some "") := by
  have hA : (parse_entry e).authors
      = (e.findall (ATOM_NS ++ "author")).map
          (fun author => clean_text (author.findtext (ATOM_NS ++ "name"))) := rfl
  constructor
  · rw [hA, List.length_map]
  · intro i a hi hn
    have ht : a.findtext (ATOM_NS ++ "name") = none := by
      unfold Element.findtext
      rw [hn]
      rfl
    rw [hA, List.getElem?_map, hi]
    simp [ht, clean_text]

set_option maxRecDepth 100000 in
/-- Witness for C9: the sample's second author element has no name child and
position one of the authors list holds the empty string. -/
theorem authors_one_per_author_w :
    (parse_entry entryA).authors[1]? = some "" :=
  (authors_one_per_author entryA).2 1 authorNoName (by rfl) (by rfl)

/-- C10: pdf_url is decided solely by the first pdf-titled link; when that
link has no href attribute the result is the empty string, whatever link
elements (pdf-titled ones with an href included) come later. -/
theorem pdf_url_href_missing (e : Element) (pre post : List Element) (l : Element)
    (hsplit : e.findall (ATOM_NS ++ "link") = pre ++ l :: post)
    (hpre : ∀ p ∈ pre, ¬ p.get ("title") = some "pdf")
    (hl : l.get ("title") = some "pdf")
    (hhref : l.get ("href") = none) :
    (parse_entry e).pdf_url = "" := by
  have hp : (parse_entry e).pdf_url = pdfUrlOfLinks (e.findall (ATOM_NS ++ "link")) := rfl
  rw [hp, hsplit,
    pdfUrlOfLinks_append post l (beq_iff_eq.mpr hl) pre
      (fun p hp' => beq_eq_false_iff_ne.mpr (hpre p hp')),
    hhref]
  rfl

set_option maxRecDepth 100000 in
/-- Witness for C10: in the sample entry the first pdf-titled link lacks an
href while a later pdf-titled link has one, and pdf_url is still empty. -/
theorem pdf_url_href_missing_w : (parse_entry entryA).pdf_url = "" :=
  pdf_url_href_missing entryA [linkOther] [linkPdfHref] linkPdfNoHref
    (by rfl) (by decide) (by rfl) (by rfl)

end ArxivFeed
